import Mathlib

/-!
Shallow embedding of the LRE-Core decision execution core, translated from
the Python sources:

* `src/event_bus.py`            — `EventBus` (glob pub/sub)
* `src/execution/registry.py`   — `ActionRegistry`
* `src/lre_dp.py`               — `LRE_DP.execute_decision`
* `src/decision/context.py`     — `DecisionContext`
* `src/decision/pipeline.py`    — `DecisionPipeline.execute`
* `src/persistence/engine.py`   — `PersistenceEngine`
* `src/storage/state_manager.py`— `StateManager`

Python dictionaries are modelled as insertion-ordered association lists,
JSON-representable Python values as the inductive type `Json`, exceptions
raised by collaborators as explicit outcome constructors, and the event bus
as the list of topics published (with the identifiers of the handlers each
publish fans out to).
-/

namespace LRECore

/-- JSON-representable Python value (payloads, results, metadata values).
`null` models Python `None`.  Numbers are modelled as integers; no claim
depends on float arithmetic. -/
inductive Json where
  | null : Json
  | bool : Bool → Json
  | num : Int → Json
  | str : String → Json
  | arr : List Json → Json
  | obj : List (String × Json) → Json
deriving Repr

/-- A Python `dict` with string keys: insertion-ordered association list.
Real Python dicts never hold a key twice; lookups take the first match. -/
abbrev PyDict := List (String × Json)

/-- `d.get(k)` on a Python dict: `None` (here `Option.none`) when absent. -/
def dictGet (d : PyDict) (k : String) : Option Json :=
  (d.find? (fun kv => kv.1 == k)).map (fun kv => kv.2)

/-- `k in d` on a Python dict: key membership. -/
def dictHasKey (d : PyDict) (k : String) : Bool :=
  d.any (fun kv => kv.1 == k)

/-- Python truthiness of a JSON-representable value (`if not action_name:`
in `lre_dp.py` and the filter guards in `persistence/engine.py`). -/
def pyTruthy : Json → Bool
  | .null => false
  | .bool b => b
  | .num n => n != 0
  | .str s => s != ""
  | .arr xs => !xs.isEmpty
  | .obj kvs => !kvs.isEmpty

mutual

/-- Python `repr` of a value (used for values nested inside containers);
quote escaping inside strings is not modelled (no claim exercises it). -/
def reprJson : Json → String
  | .null => "None"
  | .bool true => "True"
  | .bool false => "False"
  | .num n => toString n
  | .str s => "'" ++ s ++ "'"
  | .arr xs => "[" ++ String.intercalate ", " (reprJsonList xs) ++ "]"
  | .obj kvs => "\x7b" ++ String.intercalate ", " (reprJsonObj kvs) ++ "\x7d"

/-- `repr` of each element of a Python list. -/
def reprJsonList : List Json → List String
  | [] => []
  | x :: xs => reprJson x :: reprJsonList xs

/-- `'key': repr(value)` for each entry of a Python dict. -/
def reprJsonObj : List (String × Json) → List String
  | [] => []
  | (k, v) :: kvs => ("'" ++ k ++ "': " ++ reprJson v) :: reprJsonObj kvs

end

/-- Python `str()` of a value, as interpolated by f-strings such as
`f"Unknown action: {action_name}"` in `lre_dp.py`.  Only the `str` case is
exercised by the claims. -/
def jsonToPyStr : Json → String
  | .str s => s
  | j => reprJson j

/-! ### Glob matching (`fnmatch.fnmatch`, used by `EventBus._matches`)

`event_bus.py` matches a concrete topic against a subscription pattern with
`fnmatch.fnmatch(topic, subscription_pattern)`.  The patterns this
repository uses contain only literal characters, `*` and `?`; character
classes (`[...]`) are not modelled. -/

/-- Shell-style glob matching on character lists: `*` matches any (possibly
empty) run, `?` any single character, anything else itself. -/
def globMatch : List Char → List Char → Bool
  | [], cs => cs.isEmpty
  | p :: ps, cs =>
      if p = '*' then
        match cs with
        | [] => globMatch ps []
        | _ :: cs' => globMatch ps cs || globMatch (p :: ps) cs'
      else
        match cs with
        | [] => false
        | c :: cs' => (p == '?' || p == c) && globMatch ps cs'
termination_by ps cs => (ps.length, cs.length)

/-- `EventBus._matches(subscription_pattern, topic)`:
`fnmatch.fnmatch(topic, subscription_pattern)`. -/
def busMatches (pattern topic : String) : Bool :=
  globMatch pattern.data topic.data

/-! ### EventBus (`src/event_bus.py`)

`EventBus._subscribers` is a `Dict[str, List[Callable]]`; handlers are
modelled by opaque-to-the-bus identifiers (`Nat`).  The subscriber table is
an insertion-ordered association list, one entry per pattern — exactly the
shape the Python dict maintains. -/

/-- The subscriber table: pattern → handlers, in insertion order. -/
abbrev BusSubs := List (String × List Nat)

/-- `EventBus.subscribe(topic, handler)`: create the pattern's entry when
absent; append the handler only when not already present. -/
def busSubscribe : BusSubs → String → Nat → BusSubs
  | [], p, h => [(p, [h])]
  | (q, hs) :: rest, p, h =>
      if q == p then
        (q, if h ∈ hs then hs else hs ++ [h]) :: rest
      else
        (q, hs) :: busSubscribe rest p h

/-- `EventBus.unsubscribe(topic, handler)`: remove the handler from the
pattern's list (Python `list.remove` drops the first occurrence) and drop
the entry entirely when its list becomes empty. -/
def busUnsubscribe : BusSubs → String → Nat → BusSubs
  | [], _, _ => []
  | (q, hs) :: rest, p, h =>
      if q == p then
        if h ∈ hs then
          let hs' := hs.erase h
          if hs'.isEmpty then rest else (q, hs') :: rest
        else (q, hs) :: rest
      else (q, hs) :: busUnsubscribe rest p h

/-- The `handlers_to_call` list gathered by `EventBus.publish`: the handlers
of every subscription whose pattern matches the topic, in table order. -/
def publishMatched (subs : BusSubs) (topic : String) : List Nat :=
  ((subs.filter (fun e => busMatches e.1 topic)).map (fun e => e.2)).flatten

/-- Observable outcome of `EventBus._safe_execute` for one handler: it ran
and returned, or it raised and the exception was caught and logged. -/
inductive HandlerRun where
  | ok : Nat → HandlerRun
  | errorLogged : Nat → HandlerRun
deriving Repr, DecidableEq

/-- The handler the run belongs to. -/
def HandlerRun.handler : HandlerRun → Nat
  | .ok h => h
  | .errorLogged h => h

/-- `EventBus._safe_execute(handler, ...)`: a raising handler is caught and
logged, never propagated (`raises` says which handlers raise). -/
def safeExecute (raises : Nat → Bool) (h : Nat) : HandlerRun :=
  if raises h then .errorLogged h else .ok h

/-- `EventBus.publish(topic, data)`: every matched handler is executed
through `_safe_execute`; the publish itself always returns normally. -/
def busPublish (raises : Nat → Bool) (subs : BusSubs) (topic : String) :
    List HandlerRun :=
  (publishMatched subs topic).map (safeExecute raises)

/-! ### ActionRegistry (`src/execution/registry.py`) -/

/-- Behaviour of one registered asynchronous action handler when invoked on
a decision context: it returns a result value, or raises an exception with
message `errMsg` whose class name is `errType`. -/
inductive HandlerOutcome where
  | ok : Json → HandlerOutcome
  | raise : String → String → HandlerOutcome

/-- `ActionRegistry._handlers`: a `Dict[str, Callable]`, insertion-ordered,
one entry per action name. -/
abbrev Registry := List (String × HandlerOutcome)

/-- `ActionRegistry.register(name, handler)`: plain dict assignment —
overwrite in place when the name exists, append otherwise. -/
def registryRegister : Registry → String → HandlerOutcome → Registry
  | [], n, h => [(n, h)]
  | (m, g) :: rest, n, h =>
      if m == n then (m, h) :: rest else (m, g) :: registryRegister rest n h

/-- `ActionRegistry.get_handler(name)`: `self._handlers.get(name)`. -/
def getHandler (reg : Registry) (name : String) : Option HandlerOutcome :=
  (reg.find? (fun e => e.1 == name)).map (fun e => e.2)

/-- `ActionRegistry.list_actions()`: `list(self._handlers.keys())`. -/
def listActions (reg : Registry) : List String :=
  reg.map (fun e => e.1)

/-- `ActionRegistry.has_action(name)`: `name in self._handlers`. -/
def hasAction (reg : Registry) (name : String) : Bool :=
  reg.any (fun e => e.1 == name)

/-! ### LRE_DP (`src/lre_dp.py`)

`LRE_DP.execute_decision` returns one of five dict shapes, modelled as an
inductive; its `"status"` key is recovered by `DpResult.status`.  The
pipeline always passes a `DecisionContext` (which has `decision_input`), so
the context branch of the extraction is the one modelled; the
`self.update_state(decision_dict)` bookkeeping mutates only `LRE_DP.state`,
which nothing else reads, and is not threaded here. -/

/-- The dict returned by `LRE_DP.execute_decision`, one constructor per
`return` statement of the source. -/
inductive DpResult where
  /-- `{"status": "rejected", "error": "Invalid decision data type"}` -/
  | rejectedInvalidType : DpResult
  /-- `{"status": "rejected", "reason": "Missing 'action' field"}` -/
  | rejectedMissingAction : DpResult
  /-- `{"status": "rejected", "reason": ..., "available_actions": ...}` -/
  | rejectedUnknown : String → List String → DpResult
  /-- `{"status": "executed", "result": result}` -/
  | executed : Json → DpResult
  /-- `{"status": "failed", "action": ..., "error": ..., "error_type": ...}` -/
  | failed : String → String → String → DpResult

/-- The `"status"` entry of the returned dict. -/
def DpResult.status : DpResult → String
  | .rejectedInvalidType => "rejected"
  | .rejectedMissingAction => "rejected"
  | .rejectedUnknown _ _ => "rejected"
  | .executed _ => "executed"
  | .failed _ _ _ => "failed"

/-- The returned dict itself, as a JSON object (this is the value the
pipeline stores into the context's `result` field). -/
def DpResult.toJson : DpResult → Json
  | .rejectedInvalidType =>
      .obj [("status", .str "rejected"), ("error", .str "Invalid decision data type")]
  | .rejectedMissingAction =>
      .obj [("status", .str "rejected"), ("reason", .str "Missing 'action' field")]
  | .rejectedUnknown reason avail =>
      .obj [("status", .str "rejected"), ("reason", .str reason),
            ("available_actions", .arr (avail.map Json.str))]
  | .executed r =>
      .obj [("status", .str "executed"), ("result", r)]
  | .failed a e t =>
      .obj [("status", .str "failed"), ("action", .str a),
            ("error", .str e), ("error_type", .str t)]

/-- `LRE_DP.execute_decision(ctx)` on the decision dict `d`, given the
handler behaviours in `reg`.  Returns the result dict together with whether
the action handler was actually invoked.  The registry is keyed by strings,
so a non-string (or falsy) `"action"` value never reaches a handler. -/
def executeDecision (reg : Registry) (d : PyDict) : DpResult × Bool :=
  let actionVal := (dictGet d "action").getD Json.null
  if !pyTruthy actionVal then
    (.rejectedMissingAction, false)
  else
    let lookup := match actionVal with
      | .str s => getHandler reg s
      | _ => none
    match lookup with
    | none =>
        (.rejectedUnknown ("Unknown action: " ++ jsonToPyStr actionVal)
          (listActions reg), false)
    | some (.ok r) => (.executed r, true)
    | some (.raise msg ty) =>
        (.failed (jsonToPyStr actionVal) msg ty, true)

/-! ### DecisionContext summaries and DecisionPipeline (`src/decision/`)

`DecisionContext.get_summary()` is a dict with fixed keys; it is modelled
as a structure.  Timing (`latency_ms`) is kept abstract as a `Nat` — no
claim depends on wall-clock values.  The pipeline's collaborators (the
Presence and Routing capabilities) are modelled by their observable
behaviour at the single call the pipeline makes: the attribute is missing
(`AttributeError` branch), the call returns a value, or it raises. -/

/-- `DecisionContext.get_summary()`. -/
structure Summary where
  status : String
  trace_id : String
  decision : PyDict
  result : Option Json
  latency_ms : Nat
  errors : List String
  metadata : List (String × Json)
deriving Repr

/-- The Presence capability at `self.lpi.query_presence(agent_id)`:
attribute missing, a returned boolean, or a raised exception. -/
inductive CapPresence where
  | absent : CapPresence
  | ok : Bool → CapPresence
  | err : String → CapPresence

/-- The Routing capability at `self.lri.calculate_route(agent_id, action)`. -/
inductive CapRoute where
  | absent : CapRoute
  | ok : Json → CapRoute
  | err : String → CapRoute

/-- The environment a single `DecisionPipeline.execute` call runs against:
capability behaviours plus the `ActionRegistry` backing `LRE_DP`. -/
structure PipeEnv where
  presence : CapPresence
  routing : CapRoute
  registry : Registry

/-- `DecisionPipeline.execute` returns either the raw early-rejection dict
`{"status": "rejected", "errors": ["Invalid input format"], "decision": ...}`
(built before any context exists) or a context summary. -/
inductive PipeResponse where
  | invalidInput : PyDict → PipeResponse
  | summary : Summary → PipeResponse

/-- The `"status"` field of the returned value. -/
def PipeResponse.status : PipeResponse → String
  | .invalidInput _ => "rejected"
  | .summary s => s.status

/-- The `"errors"` field of the returned value (the early-rejection dict
carries the literal list written in the source). -/
def PipeResponse.errors : PipeResponse → List String
  | .invalidInput _ => ["Invalid input format"]
  | .summary s => s.errors

/-- The `"result"` field of the returned value (absent on early rejection). -/
def PipeResponse.result : PipeResponse → Option Json
  | .invalidInput _ => none
  | .summary s => s.result

/-- The `"metadata"` field of the returned value (absent on early rejection). -/
def PipeResponse.metadata : PipeResponse → List (String × Json)
  | .invalidInput _ => []
  | .summary s => s.metadata

/-- Everything observable about one `DecisionPipeline.execute` call: the
returned value, the topics published on the bus in order, whether a
`DecisionContext` was created, and whether the action handler ran. -/
structure PipeOutcome where
  response : PipeResponse
  published : List String
  ctxCreated : Bool
  handlerInvoked : Bool

/-- `DecisionPipeline._validate_input`: all of `action`, `agent_id`,
`payload` must be present as keys. -/
def validateInput (d : PyDict) : Bool :=
  ["action", "agent_id", "payload"].all (fun k => dictHasKey d k)

/-- Whether the Routing capability call raises (the branch of step 4 that
marks the decision failed). -/
def routingErrs : CapRoute → Bool
  | .err _ => true
  | _ => false

/-- Key lookup inside a JSON object value (`j["k"]` on a parsed dict);
`none` for non-objects or missing keys. -/
def jsonObjGet (j : Json) (k : String) : Option Json :=
  match j with
  | .obj kvs => dictGet kvs k
  | _ => none

/-- The `is_online` computed by step 3 of `DecisionPipeline.execute`:
`AttributeError` degrades to online; any other exception is logged and
leaves `is_online = False`. -/
def presenceIsOnline : CapPresence → Bool
  | .absent => true
  | .ok b => b
  | .err _ => false

/-- `DecisionPipeline.execute(dml_input)` with trace id `tid` (the model's
stand-in for the freshly generated UUID) and latency `lat`. -/
def pipelineExecute (env : PipeEnv) (tid : String) (lat : Nat) (d : PyDict) :
    PipeOutcome :=
  if !validateInput d then
    ⟨.invalidInput d, [], false, false⟩
  else
    -- `__aenter__` seeds the metadata with agent_id and action.
    let meta0 : List (String × Json) :=
      [("agent_id", (dictGet d "agent_id").getD Json.null),
       ("action", (dictGet d "action").getD Json.null)]
    if !presenceIsOnline env.presence then
      ⟨.summary ⟨"deferred", tid, d, none, lat, [],
          meta0 ++ [("reason", .str "agent_offline")]⟩,
        ["decision.received", "decision.deferred"], true, false⟩
    else
      match env.routing with
      | .err msg =>
          -- `ctx.mark_failed(e)` records `str(e)` and flips the status.
          ⟨.summary ⟨"failed", tid, d, none, lat, [msg], meta0⟩,
            ["decision.received", "decision.failed"], true, false⟩
      | routing =>
          let routeVal : Json := match routing with
            | .ok r => r
            | _ => .str "direct"
          let meta1 := meta0 ++ [("route", routeVal)]
          let res := executeDecision env.registry d
          let finalStatus := res.1.status
          let terminalTopic :=
            if finalStatus == "failed" then "decision.failed"
            else if finalStatus == "rejected" then "decision.rejected"
            else if finalStatus == "deferred" then "decision.deferred"
            else "decision.completed"
          ⟨.summary ⟨finalStatus, tid, d, some res.1.toJson, lat, [], meta1⟩,
            ["decision.received", "decision.executing", terminalTopic],
            true, res.2⟩

/-! ### PersistenceEngine (`src/persistence/engine.py`)

`json.dumps` / `json.loads` of the Python standard library are modelled as
the wrapper `SerJson` and its projection: for JSON-serializable values the
pair is a library-guaranteed bijection, and the claims under test concern
the engine's own field mapping and query logic, not the JSON encoder.
SQLite constraint checking is modelled explicitly in `insertRecord`: the
`trace_id` PRIMARY KEY, the NOT NULL columns and the `status` CHECK make
the INSERT raise, which `_insert_record` catches, leaving the table
unchanged.  The model's insert accepts string-valued `agent_id`/`action`
(their declared type); SQLite's text-affinity coercion of non-string
values is outside the modelled domain.  `time.time()` is modelled by a
strictly increasing logical clock carried in the database state. -/

/-- The TEXT produced by `json.dumps(v)`. -/
structure SerJson where
  val : Json
deriving Repr

/-- `json.loads` of such a TEXT. -/
def serLoads (s : SerJson) : Json := s.val

/-- One row of the `decision_log` table. -/
structure PRecord where
  trace_id : String
  timestamp : Nat
  agent_id : String
  action : String
  status : String
  input_payload : SerJson
  result_payload : SerJson
  latency_ms : Option Nat
  error_msg : Option String
deriving Repr

/-- The persistent store: the `decision_log` rows in insertion order, plus
the logical clock supplying `time.time()`. -/
structure PDb where
  rows : List PRecord
  clock : Nat
deriving Repr

/-- The `status` CHECK constraint of the `decision_log` schema. -/
def statusAllowed (s : String) : Bool :=
  s ∈ ["executed", "failed", "rejected", "deferred"]

/-- The summary's `decision.get(k)` where the schema requires TEXT NOT NULL:
present and string-valued. -/
def dictGetStr (d : PyDict) (k : String) : Option String :=
  match dictGet d k with
  | some (.str s) => some s
  | _ => none

/-- `", ".join(summary.get("errors", []))` or NULL when the list is empty. -/
def errJoin (errors : List String) : Option String :=
  if errors.isEmpty then none else some (String.intercalate ", " errors)

/-- `json.dumps(summary.get("result"))`: Python `None` serializes to the
TEXT `"null"`, never to SQL NULL. -/
def dumpResult (r : Option Json) : SerJson :=
  ⟨r.getD Json.null⟩

/-- `PersistenceEngine._insert_record(summary)`: attempt the INSERT; any
constraint violation is caught and logged, leaving the table unchanged and
returning normally. -/
def insertRecord (db : PDb) (s : Summary) : PDb :=
  match dictGetStr s.decision "agent_id", dictGetStr s.decision "action" with
  | some aid, some act =>
      if db.rows.any (fun r => r.trace_id == s.trace_id) then
        db  -- PRIMARY KEY violation: INSERT raises, caught, nothing written
      else if !statusAllowed s.status then
        db  -- CHECK(status) violation: INSERT raises, caught
      else
        ⟨db.rows ++ [⟨s.trace_id, db.clock, aid, act, s.status,
            ⟨Json.obj s.decision⟩, dumpResult s.result,
            some s.latency_ms, errJoin s.errors⟩],
          db.clock + 1⟩
  | _, _ => db  -- NOT NULL violation on agent_id/action: INSERT raises, caught

/-- `PersistenceEngine.log_decision_from_summary(summary)`. -/
def logDecisionFromSummary (db : PDb) (s : Summary) : PDb :=
  insertRecord db s

/-- `PersistenceEngine.log_decision(context)`: the context's summary. -/
def logDecision (db : PDb) (ctxSummary : Summary) : PDb :=
  insertRecord db ctxSummary

/-- `PersistenceEngine._on_decision_event(topic, data)`: the `decision.*`
event subscription entry point. -/
def onDecisionEvent (db : PDb) (_topic : String) (data : Summary) : PDb :=
  logDecisionFromSummary db data

/-- One record as returned by `get_agent_history`: columns with the two
payload TEXTs parsed back to values.  The guard
`if record["result_payload"]:` in the source tests the raw TEXT's Python
truthiness; this engine always writes `json.dumps` output there, which is
never the empty string nor SQL NULL, so the parse branch is always taken. -/
structure HistoryRecord where
  trace_id : String
  timestamp : Nat
  agent_id : String
  action : String
  status : String
  input_payload : Json
  result_payload : Json
  latency_ms : Option Nat
  error_msg : Option String
deriving Repr

/-- Row-to-dict conversion plus JSON parsing done in `get_agent_history`. -/
def toHistoryRecord (r : PRecord) : HistoryRecord :=
  ⟨r.trace_id, r.timestamp, r.agent_id, r.action, r.status,
    serLoads r.input_payload, serLoads r.result_payload,
    r.latency_ms, r.error_msg⟩

/-- Python truthiness of the optional `status` / `action` filter arguments
(`if status:` / `if action:`): `None` and the empty string are falsy. -/
def truthyOptStr : Option String → Bool
  | none => false
  | some s => s != ""

/-- Python truthiness of the optional `since_timestamp` argument
(`if since_timestamp:`): `None` and `0` are falsy. -/
def truthyOptNat : Option Nat → Bool
  | none => false
  | some n => n != 0

/-- The WHERE clause assembled by `get_agent_history`: `agent_id = ?` plus
each optional conjunct only when its argument is truthy. -/
def historyPred (aid : String) (status action : Option String)
    (since : Option Nat) (r : PRecord) : Bool :=
  r.agent_id == aid
    && (if truthyOptStr status then r.status == status.getD "" else true)
    && (if truthyOptStr action then r.action == action.getD "" else true)
    && (if truthyOptNat since then decide (since.getD 0 < r.timestamp) else true)

/-- `ORDER BY timestamp DESC`: insert a row after the rows with a greater or
equal timestamp. -/
def insertDesc (r : PRecord) : List PRecord → List PRecord
  | [] => [r]
  | x :: xs => if r.timestamp ≤ x.timestamp then x :: insertDesc r xs
               else r :: x :: xs

/-- Sort rows by timestamp, newest first. -/
def sortDesc : List PRecord → List PRecord
  | [] => []
  | x :: xs => insertDesc x (sortDesc xs)

/-- `PersistenceEngine.get_agent_history(agent_id, limit, status, action,
since_timestamp)`: filter, order newest-first, limit, parse payloads. -/
def getAgentHistory (db : PDb) (aid : String) (limit : Nat)
    (status action : Option String) (since : Option Nat) :
    List HistoryRecord :=
  (((sortDesc (db.rows.filter (historyPred aid status action since))).take
      limit).map toHistoryRecord)

/-! ### StateManager (`src/storage/state_manager.py`)

The `process_state` table maps a `trace_id` to one JSON-encoded dict.  The
claims under test are about `update_state`'s read-modify-write semantics;
the `BEGIN IMMEDIATE` exclusive transaction serializes writers, so the
sequential function below is the per-id behaviour. -/

/-- The `process_state` table: `trace_id → state_data` (decoded). -/
def StateStore := String → Option PyDict

/-- Python `dict.update`: assign each key of the patch in order, replacing
in place when present, appending otherwise. -/
def dictAssign : PyDict → String → Json → PyDict
  | [], k, v => [(k, v)]
  | (m, w) :: rest, k, v =>
      if m == k then (m, v) :: rest else (m, w) :: dictAssign rest k v

/-- `current.update(new_state)` over the whole patch. -/
def dictUpdate (current patch : PyDict) : PyDict :=
  patch.foldl (fun acc kv => dictAssign acc kv.1 kv.2) current

/-- `StateManager.get_state(trace_id)`: empty dict when no row exists. -/
def getState (st : StateStore) (tid : String) : PyDict :=
  (st tid).getD []

/-- `StateManager.save_state(trace_id, state)`: `INSERT OR REPLACE`. -/
def saveState (st : StateStore) (tid : String) (state : PyDict) : StateStore :=
  fun t => if t == tid then some state else st t

/-- `StateManager.update_state(trace_id, new_state, merge)`: inside the
exclusive transaction, read the row, merge when requested (a missing row
merges into the bare patch), and `INSERT OR REPLACE` the result. -/
def updateState (st : StateStore) (tid : String) (newState : PyDict)
    (merge : Bool) : StateStore :=
  let stateToSave :=
    if merge then
      match st tid with
      | some current => dictUpdate current newState
      | none => newState
    else newState
  fun t => if t == tid then some stateToSave else st t

/-! ## Theorems -/

/-! ### Dictionary lemmas (shared) -/

@[simp] theorem dictGet_nil (k : String) : dictGet [] k = none := rfl

@[simp] theorem dictGet_cons (m : String) (w : Json) (rest : PyDict)
    (k : String) :
    dictGet ((m, w) :: rest) k = if m = k then some w else dictGet rest k := by
  by_cases h : m = k
  · rw [dictGet, List.find?_cons_of_pos _ (by simp [h])]
    simp [h]
  · rw [dictGet, List.find?_cons_of_neg _ (by simp [h])]
    simp [h, dictGet]

@[simp] theorem dictAssign_nil (k : String) (v : Json) :
    dictAssign [] k v = [(k, v)] := rfl

@[simp] theorem dictAssign_cons (m : String) (w : Json) (rest : PyDict)
    (k : String) (v : Json) :
    dictAssign ((m, w) :: rest) k v =
      if m = k then (m, v) :: rest else (m, w) :: dictAssign rest k v := by
  by_cases h : m = k <;> simp [dictAssign, h]

theorem dictGet_dictAssign_self (d : PyDict) (k : String) (v : Json) :
    dictGet (dictAssign d k v) k = some v := by
  induction d with
  | nil => simp
  | cons kv rest ih =>
      obtain ⟨m, w⟩ := kv
      by_cases h : m = k
      · subst h; simp
      · simp [h, ih]

theorem dictGet_dictAssign_ne (d : PyDict) (k k' : String) (v : Json)
    (hne : k' ≠ k) : dictGet (dictAssign d k v) k' = dictGet d k' := by
  induction d with
  | nil => simp [Ne.symm hne]
  | cons kv rest ih =>
      obtain ⟨m, w⟩ := kv
      by_cases h : m = k
      · subst h; simp [Ne.symm hne]
      · by_cases h2 : m = k' <;> simp [h, h2, hne, ih]

theorem dictGet_dictUpdate_not_mem (d P : PyDict) (k : String)
    (hk : k ∉ P.map Prod.fst) :
    dictGet (dictUpdate d P) k = dictGet d k := by
  induction P generalizing d with
  | nil => rfl
  | cons kv rest ih =>
      obtain ⟨m, w⟩ := kv
      simp only [List.map_cons, List.mem_cons, not_or] at hk
      show dictGet (dictUpdate (dictAssign d m w) rest) k = _
      rw [ih (dictAssign d m w) hk.2,
        dictGet_dictAssign_ne d m k w hk.1]

theorem dictGet_dictUpdate_mem (d P : PyDict) (k : String) (v : Json)
    (hnd : (P.map Prod.fst).Nodup) (hmem : (k, v) ∈ P) :
    dictGet (dictUpdate d P) k = some v := by
  induction P generalizing d with
  | nil => cases hmem
  | cons kv rest ih =>
      obtain ⟨m, w⟩ := kv
      simp only [List.map_cons, List.nodup_cons] at hnd
      rcases List.mem_cons.mp hmem with h | h
      · obtain ⟨hk, hv⟩ := Prod.mk.injEq .. ▸ h
        subst hk; subst hv
        show dictGet (dictUpdate (dictAssign d k v) rest) k = some v
        rw [dictGet_dictUpdate_not_mem _ _ _ hnd.1,
          dictGet_dictAssign_self]
      · exact ih (dictAssign d m w) hnd.2 h

theorem mem_keys_dictAssign (d : PyDict) (k k' : String) (v : Json)
    (hk : k' ∈ d.map Prod.fst) :
    k' ∈ (dictAssign d k v).map Prod.fst := by
  induction d with
  | nil => cases hk
  | cons kv rest ih =>
      obtain ⟨m, w⟩ := kv
      by_cases h : m = k
      · subst h; simpa [dictAssign] using hk
      · simp only [dictAssign, beq_iff_eq, h, if_false, List.map_cons,
          List.mem_cons] at hk ⊢
        rcases hk with h2 | h2
        · exact Or.inl h2
        · exact Or.inr (ih h2)

theorem mem_keys_dictUpdate (d P : PyDict) (k : String)
    (hk : k ∈ d.map Prod.fst) :
    k ∈ (dictUpdate d P).map Prod.fst := by
  induction P generalizing d with
  | nil => exact hk
  | cons kv rest ih =>
      exact ih (dictAssign d kv.1 kv.2) (mem_keys_dictAssign d kv.1 k kv.2 hk)

theorem dictGet_eq_none_of_not_mem (d : PyDict) (k : String)
    (hk : k ∉ d.map Prod.fst) : dictGet d k = none := by
  induction d with
  | nil => rfl
  | cons kv rest ih =>
      obtain ⟨m, w⟩ := kv
      simp only [List.map_cons, List.mem_cons, not_or] at hk
      simp [Ne.symm hk.1, ih hk.2]

theorem mem_keys_of_dictGet_some (d : PyDict) (k : String) (v : Json)
    (h : dictGet d k = some v) : k ∈ d.map Prod.fst := by
  by_contra hk
  rw [dictGet_eq_none_of_not_mem d k hk] at h
  cases h

/-! ### EventBus lemmas (shared) -/

theorem busSubscribe_idem (subs : BusSubs) (p : String) (h : Nat) :
    busSubscribe (busSubscribe subs p h) p h = busSubscribe subs p h := by
  induction subs with
  | nil => simp [busSubscribe]
  | cons e rest ih =>
      obtain ⟨q, hs⟩ := e
      by_cases hq : q = p
      · subst hq
        by_cases hmem : h ∈ hs
        · simp [busSubscribe, hmem]
        · simp [busSubscribe, hmem]
      · simp [busSubscribe, hq, ih]

/-!
### C8 — EventBus delivery semantics
-/

/-- C8: publishing `decision.completed` invokes a handler subscribed on
`decision.*` exactly once even if the pair was subscribed twice (the second
subscribe of the same pair is a no-op); after unsubscribing the pair the
handler is no longer invoked; and the set of handlers a publish runs is
independent of which handlers raise — a raising sibling is caught, so it
neither blocks delivery to the other matched handlers nor propagates to the
publisher (final conjunct: a concrete two-handler bus where handler 0
raises and handler 1 is still delivered). -/
theorem C8_eventbus_delivery :
    (∀ subs p h, busSubscribe (busSubscribe subs p h) p h = busSubscribe subs p h)
    ∧ (∀ h : Nat,
        publishMatched
          (busSubscribe (busSubscribe [] "decision.*" h) "decision.*" h)
          "decision.completed" = [h])
    ∧ (∀ h : Nat,
        publishMatched
          (busUnsubscribe (busSubscribe [] "decision.*" h) "decision.*" h)
          "decision.completed" = [])
    ∧ (∀ raises subs topic,
        (busPublish raises subs topic).map HandlerRun.handler
          = publishMatched subs topic)
    ∧ busPublish (fun h => h == 0)
        (busSubscribe (busSubscribe [] "decision.*" 0) "decision.*" 1)
        "decision.completed"
        = [HandlerRun.errorLogged 0, HandlerRun.ok 1] := by
  refine ⟨busSubscribe_idem, ?_, ?_, ?_, ?_⟩
  · intro h
    simp [busSubscribe, publishMatched, busMatches, globMatch]
  · intro h
    simp [busSubscribe, busUnsubscribe, publishMatched, List.erase]
  · intro raises subs topic
    show (List.map (safeExecute raises) (publishMatched subs topic)).map
        HandlerRun.handler = publishMatched subs topic
    generalize publishMatched subs topic = l
    induction l with
    | nil => rfl
    | cons x xs ih =>
        by_cases hx : raises x <;>
          simp [safeExecute, HandlerRun.handler, hx, ih]
  · simp [busSubscribe, busPublish, publishMatched, busMatches, globMatch,
      safeExecute]

/-!
### C1 — presence-capability error
-/

/-- C1 (counterexample): with a Presence capability that raises
(`CapPresence.err "boom"`) and a registered `ping` handler, the pipeline
ends the decision with status `deferred` — not `failed` — and publishes
`decision.deferred`, never `decision.failed` (the `except Exception` branch
of step 3 sets `is_online = False`, which flows into the offline path). -/
theorem C1_counterexample :
    (pipelineExecute ⟨CapPresence.err "boom", CapRoute.absent,
        [("ping", HandlerOutcome.ok Json.null)]⟩ "trace-1" 0
        [("action", Json.str "ping"), ("agent_id", Json.str "a1"),
         ("payload", Json.obj [])]).response.status = "deferred"
    ∧ (pipelineExecute ⟨CapPresence.err "boom", CapRoute.absent,
        [("ping", HandlerOutcome.ok Json.null)]⟩ "trace-1" 0
        [("action", Json.str "ping"), ("agent_id", Json.str "a1"),
         ("payload", Json.obj [])]).response.status ≠ "failed"
    ∧ "decision.failed" ∉ (pipelineExecute ⟨CapPresence.err "boom",
        CapRoute.absent, [("ping", HandlerOutcome.ok Json.null)]⟩ "trace-1" 0
        [("action", Json.str "ping"), ("agent_id", Json.str "a1"),
         ("payload", Json.obj [])]).published
    ∧ (pipelineExecute ⟨CapPresence.err "boom", CapRoute.absent,
        [("ping", HandlerOutcome.ok Json.null)]⟩ "trace-1" 0
        [("action", Json.str "ping"), ("agent_id", Json.str "a1"),
         ("payload", Json.obj [])]).handlerInvoked = false := by
  refine ⟨rfl, by decide, by decide, rfl⟩

/-- C1 (amended): for every valid DecisionInput, if the Presence
capability's query raises, `DecisionPipeline.execute` ends the decision
with status `deferred` (metadata `reason = "agent_offline"`), publishes
`decision.received` followed by `decision.deferred`, and the action handler
is never invoked. -/
theorem C1_presence_error_defers (env : PipeEnv) (tid : String) (lat : Nat)
    (d : PyDict) (msg : String)
    (hval : validateInput d = true)
    (hpres : env.presence = CapPresence.err msg) :
    (pipelineExecute env tid lat d).response.status = "deferred"
    ∧ dictGet (pipelineExecute env tid lat d).response.metadata "reason"
        = some (Json.str "agent_offline")
    ∧ (pipelineExecute env tid lat d).published
        = ["decision.received", "decision.deferred"]
    ∧ (pipelineExecute env tid lat d).handlerInvoked = false := by
  simp [pipelineExecute, hval, hpres, presenceIsOnline, PipeResponse.status,
    PipeResponse.metadata]

/-- C1 (witness): the amended theorem applied at a concrete erroring
Presence capability. -/
theorem C1_presence_error_defers_witness :
    (pipelineExecute ⟨CapPresence.err "boom", CapRoute.absent,
        [("ping", HandlerOutcome.ok Json.null)]⟩ "trace-1" 0
        [("action", Json.str "ping"), ("agent_id", Json.str "a1"),
         ("payload", Json.obj [])]).response.status = "deferred"
    ∧ dictGet (pipelineExecute ⟨CapPresence.err "boom", CapRoute.absent,
        [("ping", HandlerOutcome.ok Json.null)]⟩ "trace-1" 0
        [("action", Json.str "ping"), ("agent_id", Json.str "a1"),
         ("payload", Json.obj [])]).response.metadata "reason"
        = some (Json.str "agent_offline")
    ∧ (pipelineExecute ⟨CapPresence.err "boom", CapRoute.absent,
        [("ping", HandlerOutcome.ok Json.null)]⟩ "trace-1" 0
        [("action", Json.str "ping"), ("agent_id", Json.str "a1"),
         ("payload", Json.obj [])]).published
        = ["decision.received", "decision.deferred"]
    ∧ (pipelineExecute ⟨CapPresence.err "boom", CapRoute.absent,
        [("ping", HandlerOutcome.ok Json.null)]⟩ "trace-1" 0
        [("action", Json.str "ping"), ("agent_id", Json.str "a1"),
         ("payload", Json.obj [])]).handlerInvoked = false :=
  C1_presence_error_defers _ "trace-1" 0 _ "boom" rfl rfl

/-!
### C2 — handler-reported status
-/

/-- C2 (counterexample): a handler that completes normally returning the
result map `{"status": "rejected"}` does **not** make `rejected` the
decision's final status: `LRE_DP.execute_decision` wraps every
non-raising handler return as `{"status": "executed", "result": ...}`, so
the pipeline's final status is `executed` and `decision.completed` — not
`decision.rejected` — is the terminal topic. -/
theorem C2_counterexample :
    (pipelineExecute ⟨CapPresence.ok true, CapRoute.absent,
        [("ping", HandlerOutcome.ok (Json.obj [("status", Json.str "rejected")]))]⟩
        "trace-2" 0
        [("action", Json.str "ping"), ("agent_id", Json.str "a1"),
         ("payload", Json.obj [])]).response.status = "executed"
    ∧ (pipelineExecute ⟨CapPresence.ok true, CapRoute.absent,
        [("ping", HandlerOutcome.ok (Json.obj [("status", Json.str "rejected")]))]⟩
        "trace-2" 0
        [("action", Json.str "ping"), ("agent_id", Json.str "a1"),
         ("payload", Json.obj [])]).response.status ≠ "rejected"
    ∧ (pipelineExecute ⟨CapPresence.ok true, CapRoute.absent,
        [("ping", HandlerOutcome.ok (Json.obj [("status", Json.str "rejected")]))]⟩
        "trace-2" 0
        [("action", Json.str "ping"), ("agent_id", Json.str "a1"),
         ("payload", Json.obj [])]).published
        = ["decision.received", "decision.executing", "decision.completed"] :=
  ⟨rfl, by decide, rfl⟩

/-- C2 (amended): for every decision whose action handler completes without
raising, the decision's final status is `executed` and `decision.completed`
is the terminal topic, regardless of the handler's own returned result map:
`LRE_DP.execute_decision` stores the handler's return nested under
`result.result` inside the `{"status": "executed", ...}` envelope, so a
status reported inside the handler's map never overrides the outer status
(the `rejected`/`failed` statuses arise only from unknown actions, invalid
input, or a raising handler). -/
theorem C2_handler_success_executed (env : PipeEnv) (tid : String)
    (lat : Nat) (d : PyDict) (a : String) (r : Json)
    (hval : validateInput d = true)
    (hon : presenceIsOnline env.presence = true)
    (hroute : routingErrs env.routing = false)
    (hact : dictGet d "action" = some (Json.str a))
    (ha : a ≠ "")
    (hh : getHandler env.registry a = some (HandlerOutcome.ok r)) :
    (pipelineExecute env tid lat d).response.status = "executed"
    ∧ (pipelineExecute env tid lat d).published
        = ["decision.received", "decision.executing", "decision.completed"]
    ∧ (pipelineExecute env tid lat d).response.result
        = some (Json.obj [("status", Json.str "executed"), ("result", r)]) := by
  have hdp : executeDecision env.registry d = (DpResult.executed r, true) := by
    simp [executeDecision, hact, pyTruthy, ha, hh]
  rcases henv : env.routing with _ | rt | m
  · simp [pipelineExecute, hval, hon, henv, hdp, DpResult.status,
      DpResult.toJson, PipeResponse.status, PipeResponse.result]
  · simp [pipelineExecute, hval, hon, henv, hdp, DpResult.status,
      DpResult.toJson, PipeResponse.status, PipeResponse.result]
  · rw [henv] at hroute; simp [routingErrs] at hroute

/-- C2 (witness): the amended theorem applied to the handler of the
counterexample, whose returned map carries `"status": "rejected"`. -/
theorem C2_handler_success_executed_witness :
    (pipelineExecute ⟨CapPresence.ok true, CapRoute.absent,
        [("ping", HandlerOutcome.ok (Json.obj [("status", Json.str "rejected")]))]⟩
        "trace-2" 0
        [("action", Json.str "ping"), ("agent_id", Json.str "a1"),
         ("payload", Json.obj [])]).response.status = "executed"
    ∧ (pipelineExecute ⟨CapPresence.ok true, CapRoute.absent,
        [("ping", HandlerOutcome.ok (Json.obj [("status", Json.str "rejected")]))]⟩
        "trace-2" 0
        [("action", Json.str "ping"), ("agent_id", Json.str "a1"),
         ("payload", Json.obj [])]).published
        = ["decision.received", "decision.executing", "decision.completed"]
    ∧ (pipelineExecute ⟨CapPresence.ok true, CapRoute.absent,
        [("ping", HandlerOutcome.ok (Json.obj [("status", Json.str "rejected")]))]⟩
        "trace-2" 0
        [("action", Json.str "ping"), ("agent_id", Json.str "a1"),
         ("payload", Json.obj [])]).response.result
        = some (Json.obj [("status", Json.str "executed"),
            ("result", Json.obj [("status", Json.str "rejected")])]) :=
  C2_handler_success_executed _ "trace-2" 0 _ "ping" _ rfl rfl rfl rfl
    (by decide) rfl

/-!
### C3 — execute is total with a definite status
-/

/-- C3: for every input map containing the keys `action`, `agent_id` and
`payload` whose action names a registered handler, `DecisionPipeline.execute`
returns a context summary (never the pre-context rejection, and — being a
total function of the modelled collaborator behaviours — never an escaping
exception: every raising collaborator is caught into the summary) whose
status is one of `executed`, `failed`, `rejected`, `deferred`. -/
theorem C3_execute_total_status (env : PipeEnv) (tid : String) (lat : Nat)
    (d : PyDict) (a : String)
    (hk1 : dictHasKey d "action" = true)
    (hk2 : dictHasKey d "agent_id" = true)
    (hk3 : dictHasKey d "payload" = true)
    (hact : dictGet d "action" = some (Json.str a))
    (hreg : hasAction env.registry a = true) :
    (∃ s, (pipelineExecute env tid lat d).response = PipeResponse.summary s)
    ∧ (pipelineExecute env tid lat d).response.status
        ∈ ["executed", "failed", "rejected", "deferred"] := by
  have hval : validateInput d = true := by
    simp [validateInput, hk1, hk2, hk3]
  by_cases hon : presenceIsOnline env.presence = true
  · rcases henv : env.routing with _ | rt | m
    · rcases hres : executeDecision env.registry d with ⟨res, inv⟩
      rcases res <;>
        simp [pipelineExecute, hval, hon, henv, hres, DpResult.status,
          PipeResponse.status]
    · rcases hres : executeDecision env.registry d with ⟨res, inv⟩
      rcases res <;>
        simp [pipelineExecute, hval, hon, henv, hres, DpResult.status,
          PipeResponse.status]
    · simp [pipelineExecute, hval, hon, henv, PipeResponse.status]
  · simp only [Bool.not_eq_true] at hon
    simp [pipelineExecute, hval, hon, PipeResponse.status]

/-- C3 (witness): a concrete valid input naming the registered `ping`
action, under always-online capabilities. -/
theorem C3_execute_total_status_witness :
    (∃ s, (pipelineExecute ⟨CapPresence.ok true, CapRoute.absent,
        [("ping", HandlerOutcome.ok Json.null)]⟩ "trace-3" 0
        [("action", Json.str "ping"), ("agent_id", Json.str "a1"),
         ("payload", Json.obj [])]).response = PipeResponse.summary s)
    ∧ (pipelineExecute ⟨CapPresence.ok true, CapRoute.absent,
        [("ping", HandlerOutcome.ok Json.null)]⟩ "trace-3" 0
        [("action", Json.str "ping"), ("agent_id", Json.str "a1"),
         ("payload", Json.obj [])]).response.status
        ∈ ["executed", "failed", "rejected", "deferred"] :=
  C3_execute_total_status _ "trace-3" 0 _ "ping" rfl rfl rfl rfl rfl

/-!
### C5 — unknown action
-/

/-- C5 (counterexample): with `ping` registered and the valid input whose
`action` value is the empty string — a string naming no registered handler —
the decision is rejected through the `Missing 'action' field` branch of
`LRE_DP.execute_decision` (the empty string is falsy), so the returned
result carries **no** `available_actions` list at all, contradicting the
claim that it includes every registered name. -/
theorem C5_counterexample :
    (pipelineExecute ⟨CapPresence.ok true, CapRoute.absent,
        [("ping", HandlerOutcome.ok Json.null)]⟩ "trace-5" 0
        [("action", Json.str ""), ("agent_id", Json.str "a1"),
         ("payload", Json.obj [])]).response.status = "rejected"
    ∧ listActions [("ping", HandlerOutcome.ok Json.null)] = ["ping"]
    ∧ ((pipelineExecute ⟨CapPresence.ok true, CapRoute.absent,
        [("ping", HandlerOutcome.ok Json.null)]⟩ "trace-5" 0
        [("action", Json.str ""), ("agent_id", Json.str "a1"),
         ("payload", Json.obj [])]).response.result.bind
          (fun j => jsonObjGet j "available_actions")) = none
    ∧ ((pipelineExecute ⟨CapPresence.ok true, CapRoute.absent,
        [("ping", HandlerOutcome.ok Json.null)]⟩ "trace-5" 0
        [("action", Json.str ""), ("agent_id", Json.str "a1"),
         ("payload", Json.obj [])]).response.result.bind
          (fun j => jsonObjGet j "reason"))
        = some (Json.str "Missing 'action' field") :=
  ⟨rfl, rfl, rfl, rfl⟩

/-- C5 (amended): for every valid DecisionInput whose action value is a
**nonempty** string naming no registered handler, with the agent online and
routing not erroring, `execute` returns status `rejected`, the returned
reason is `"Unknown action: <name>"` (so it contains the action's name),
and the returned `available_actions` list is exactly the registered names —
in particular it includes every one of them.  (An empty-string action
instead takes the `Missing 'action' field` branch, which returns no
`available_actions` — see the counterexample.) -/
theorem C5_unknown_action_rejected (env : PipeEnv) (tid : String)
    (lat : Nat) (d : PyDict) (a : String)
    (hval : validateInput d = true)
    (hon : presenceIsOnline env.presence = true)
    (hroute : routingErrs env.routing = false)
    (hact : dictGet d "action" = some (Json.str a))
    (ha : a ≠ "")
    (hh : getHandler env.registry a = none) :
    (pipelineExecute env tid lat d).response.status = "rejected"
    ∧ ((pipelineExecute env tid lat d).response.result.bind
        (fun j => jsonObjGet j "reason"))
        = some (Json.str ("Unknown action: " ++ a))
    ∧ (∃ pre post : String, "Unknown action: " ++ a = pre ++ a ++ post)
    ∧ ((pipelineExecute env tid lat d).response.result.bind
        (fun j => jsonObjGet j "available_actions"))
        = some (Json.arr ((listActions env.registry).map Json.str))
    ∧ ∀ n ∈ listActions env.registry,
        Json.str n ∈ (listActions env.registry).map Json.str := by
  have hdp : executeDecision env.registry d
      = (DpResult.rejectedUnknown ("Unknown action: " ++ a)
          (listActions env.registry), false) := by
    simp [executeDecision, hact, pyTruthy, ha, hh, jsonToPyStr]
  rcases henv : env.routing with _ | rt | m
  · refine ⟨?_, ?_, ⟨"Unknown action: ", "", by simp⟩, ?_, ?_⟩ <;>
      simp [pipelineExecute, hval, hon, henv, hdp, DpResult.status,
        DpResult.toJson, PipeResponse.status, PipeResponse.result, jsonObjGet]
  · refine ⟨?_, ?_, ⟨"Unknown action: ", "", by simp⟩, ?_, ?_⟩ <;>
      simp [pipelineExecute, hval, hon, henv, hdp, DpResult.status,
        DpResult.toJson, PipeResponse.status, PipeResponse.result, jsonObjGet]
  · rw [henv] at hroute; simp [routingErrs] at hroute

/-- C5 (witness): the amended theorem at the unknown action `frobnicate`
against a registry holding only `ping`. -/
theorem C5_unknown_action_rejected_witness :
    (pipelineExecute ⟨CapPresence.ok true, CapRoute.absent,
        [("ping", HandlerOutcome.ok Json.null)]⟩ "trace-5b" 0
        [("action", Json.str "frobnicate"), ("agent_id", Json.str "a1"),
         ("payload", Json.obj [])]).response.status = "rejected"
    ∧ ((pipelineExecute ⟨CapPresence.ok true, CapRoute.absent,
        [("ping", HandlerOutcome.ok Json.null)]⟩ "trace-5b" 0
        [("action", Json.str "frobnicate"), ("agent_id", Json.str "a1"),
         ("payload", Json.obj [])]).response.result.bind
          (fun j => jsonObjGet j "reason"))
        = some (Json.str ("Unknown action: " ++ "frobnicate"))
    ∧ (∃ pre post : String,
        "Unknown action: " ++ "frobnicate" = pre ++ "frobnicate" ++ post)
    ∧ ((pipelineExecute ⟨CapPresence.ok true, CapRoute.absent,
        [("ping", HandlerOutcome.ok Json.null)]⟩ "trace-5b" 0
        [("action", Json.str "frobnicate"), ("agent_id", Json.str "a1"),
         ("payload", Json.obj [])]).response.result.bind
          (fun j => jsonObjGet j "available_actions"))
        = some (Json.arr ((listActions
            [("ping", HandlerOutcome.ok Json.null)]).map Json.str))
    ∧ ∀ n ∈ listActions [("ping", HandlerOutcome.ok Json.null)],
        Json.str n ∈ (listActions
          [("ping", HandlerOutcome.ok Json.null)]).map Json.str :=
  C5_unknown_action_rejected _ "trace-5b" 0 _ "frobnicate" rfl rfl rfl rfl
    (by decide) rfl

/-!
### C6 — invalid input shape
-/

/-- C6: for every input map missing at least one of the keys `action`,
`agent_id`, `payload`, `execute` returns the pre-context rejection dict —
status `rejected`, errors `["Invalid input format"]` — with no
`DecisionContext` created and no event published on the bus (an empty
publish list means no `decision.*` event ever reaches the persistence
subscription, so nothing is persisted for this invocation). -/
theorem C6_invalid_input (env : PipeEnv) (tid : String) (lat : Nat)
    (d : PyDict)
    (hmiss : dictHasKey d "action" = false ∨ dictHasKey d "agent_id" = false
      ∨ dictHasKey d "payload" = false) :
    (pipelineExecute env tid lat d).response = PipeResponse.invalidInput d
    ∧ (pipelineExecute env tid lat d).response.status = "rejected"
    ∧ (pipelineExecute env tid lat d).response.errors
        = ["Invalid input format"]
    ∧ (pipelineExecute env tid lat d).ctxCreated = false
    ∧ (pipelineExecute env tid lat d).published = [] := by
  have hval : validateInput d = false := by
    rcases hmiss with h | h | h <;> simp [validateInput, h]
  simp [pipelineExecute, hval, PipeResponse.status, PipeResponse.errors]

/-- C6 (witness): an input missing the `payload` key. -/
theorem C6_invalid_input_witness :
    (pipelineExecute ⟨CapPresence.ok true, CapRoute.absent, []⟩ "trace-6" 0
        [("action", Json.str "ping"), ("agent_id", Json.str "a1")]).response
        = PipeResponse.invalidInput
            [("action", Json.str "ping"), ("agent_id", Json.str "a1")]
    ∧ (pipelineExecute ⟨CapPresence.ok true, CapRoute.absent, []⟩ "trace-6" 0
        [("action", Json.str "ping"), ("agent_id", Json.str "a1")]).response.status
        = "rejected"
    ∧ (pipelineExecute ⟨CapPresence.ok true, CapRoute.absent, []⟩ "trace-6" 0
        [("action", Json.str "ping"), ("agent_id", Json.str "a1")]).response.errors
        = ["Invalid input format"]
    ∧ (pipelineExecute ⟨CapPresence.ok true, CapRoute.absent, []⟩ "trace-6" 0
        [("action", Json.str "ping"), ("agent_id", Json.str "a1")]).ctxCreated
        = false
    ∧ (pipelineExecute ⟨CapPresence.ok true, CapRoute.absent, []⟩ "trace-6" 0
        [("action", Json.str "ping"), ("agent_id", Json.str "a1")]).published
        = [] :=
  C6_invalid_input _ "trace-6" 0 _ (Or.inr (Or.inr (by decide)))

/-!
### StateManager lemmas (shared)
-/

theorem dictGet_of_mem_nodup (P : PyDict) (k : String) (v : Json)
    (hnd : (P.map Prod.fst).Nodup) (hmem : (k, v) ∈ P) :
    dictGet P k = some v := by
  induction P with
  | nil => cases hmem
  | cons kv rest ih =>
      obtain ⟨m, w⟩ := kv
      simp only [List.map_cons, List.nodup_cons] at hnd
      rcases List.mem_cons.mp hmem with h | h
      · obtain ⟨hk, hv⟩ := Prod.mk.injEq .. ▸ h
        subst hk; subst hv; simp
      · have hne : m ≠ k := by
          intro he; subst he
          exact hnd.1 (List.mem_map.mpr ⟨(m, v), h, rfl⟩)
        simp [hne, ih hnd.2 h]

theorem getState_updateState_merge (st : StateStore) (tid : String)
    (P : PyDict) :
    getState (updateState st tid P true) tid
      = match st tid with
        | some c => dictUpdate c P
        | none => P := by
  rcases h : st tid with _ | c <;> simp [getState, updateState, h]

/-- Merge update: a key inside the patch ends up at the patch's value. -/
theorem updateState_lookup_patch (st : StateStore) (tid : String)
    (P : PyDict) (k : String) (v : Json)
    (hnd : (P.map Prod.fst).Nodup) (hmem : (k, v) ∈ P) :
    dictGet (getState (updateState st tid P true) tid) k = some v := by
  rw [getState_updateState_merge]
  rcases h : st tid with _ | c
  · exact dictGet_of_mem_nodup P k v hnd hmem
  · exact dictGet_dictUpdate_mem c P k v hnd hmem

/-- Merge update: a key outside the patch keeps its previous binding. -/
theorem updateState_lookup_frame (st : StateStore) (tid : String)
    (P : PyDict) (k : String) (hk : k ∉ P.map Prod.fst) :
    dictGet (getState (updateState st tid P true) tid) k
      = dictGet (getState st tid) k := by
  rw [getState_updateState_merge]
  rcases h : st tid with _ | c
  · rw [dictGet_eq_none_of_not_mem P k hk]; simp [getState, h]
  · rw [dictGet_dictUpdate_not_mem c P k hk]; simp [getState, h]

/-- A sequence of singleton merge updates leaves the binding of any key
outside the update sequence untouched. -/
theorem foldl_updateState_frame (ups : List (String × Json))
    (st : StateStore) (tid : String) (k : String)
    (hk : k ∉ ups.map Prod.fst) :
    dictGet (getState (ups.foldl
        (fun acc kv => updateState acc tid [kv] true) st) tid) k
      = dictGet (getState st tid) k := by
  induction ups generalizing st with
  | nil => rfl
  | cons kv rest ih =>
      simp only [List.map_cons, List.mem_cons, not_or] at hk
      rw [List.foldl_cons, ih _ hk.2,
        updateState_lookup_frame st tid [kv] k (by simp [hk.1])]

/-- A merge update never removes a key from the stored state. -/
theorem updateState_key_preserved (st : StateStore) (tid : String)
    (P : PyDict) (k : String)
    (hk : k ∈ (getState st tid).map Prod.fst) :
    k ∈ (getState (updateState st tid P true) tid).map Prod.fst := by
  rw [getState_updateState_merge]
  rcases h : st tid with _ | c
  · simp [getState, h] at hk
  · simp only [getState, h, Option.getD_some] at hk
    exact mem_keys_dictUpdate c P k hk

/-!
### C7 — merge updates lose no keys
-/

/-- C7: after `update_state(id, P, merge=True)` on stored state `S`, every
key of the patch `P` maps to `P`'s value and every key outside `P` keeps
its previous binding (so no key of `S` outside `P` is lost); consequently a
sequence of singleton merge updates with pairwise-distinct keys ends with
every updated key bound to its written value and every pre-existing key
still present. -/
theorem C7_update_state_merge (st : StateStore) (tid : String) (P : PyDict)
    (hP : (P.map Prod.fst).Nodup) :
    ((∀ k v, (k, v) ∈ P →
        dictGet (getState (updateState st tid P true) tid) k = some v)
      ∧ (∀ k, k ∉ P.map Prod.fst →
          dictGet (getState (updateState st tid P true) tid) k
            = dictGet (getState st tid) k))
    ∧ ∀ ups : List (String × Json), (ups.map Prod.fst).Nodup →
        (∀ k v, (k, v) ∈ ups →
          dictGet (getState (ups.foldl
              (fun acc kv => updateState acc tid [kv] true) st) tid) k
            = some v)
        ∧ ∀ k, k ∈ (getState st tid).map Prod.fst →
            k ∈ (getState (ups.foldl
                (fun acc kv => updateState acc tid [kv] true) st) tid).map
              Prod.fst := by
  refine ⟨⟨fun k v hm => updateState_lookup_patch st tid P k v hP hm,
    fun k hk => updateState_lookup_frame st tid P k hk⟩, ?_⟩
  intro ups
  induction ups generalizing st with
  | nil =>
      intro _
      exact ⟨fun k v hm => absurd hm (List.not_mem_nil _), fun k hk => hk⟩
  | cons kv rest ih =>
      intro hnd
      simp only [List.map_cons, List.nodup_cons] at hnd
      obtain ⟨m, w⟩ := kv
      constructor
      · intro k v hm
        rcases List.mem_cons.mp hm with h | h
        · obtain ⟨hk, hv⟩ := Prod.mk.injEq .. ▸ h
          subst hk; subst hv
          rw [List.foldl_cons,
            foldl_updateState_frame rest _ tid k hnd.1,
            updateState_lookup_patch st tid [(k, v)] k v (by simp)
              (by simp)]
        · exact (ih (updateState st tid [(m, w)] true) hnd.2).1 k v h
      · intro k hk
        rw [List.foldl_cons]
        exact (ih (updateState st tid [(m, w)] true) hnd.2).2 k
          (updateState_key_preserved st tid [(m, w)] k hk)

/-- C7 (witness): starting from `{"old": 1}` stored under `id1`, a merge
update with the two-key patch and a sequence of two singleton merge updates
both keep every key. -/
theorem C7_update_state_merge_witness :
    dictGet (getState (updateState
        (fun t => if t == "id1" then some [("old", Json.num 1)] else none)
        "id1" [("a", Json.num 2), ("b", Json.num 3)] true) "id1") "a"
      = some (Json.num 2)
    ∧ dictGet (getState (updateState
        (fun t => if t == "id1" then some [("old", Json.num 1)] else none)
        "id1" [("a", Json.num 2), ("b", Json.num 3)] true) "id1") "old"
      = dictGet (getState
          (fun t => if t == "id1" then some [("old", Json.num 1)] else none)
          "id1") "old"
    ∧ dictGet (getState ([(("a" : String), Json.num 2),
          (("b" : String), Json.num 3)].foldl
        (fun acc kv => updateState acc "id1" [kv] true)
        (fun t => if t == "id1" then some [("old", Json.num 1)] else none))
        "id1") "b" = some (Json.num 3) := by
  have h := C7_update_state_merge
    (fun t => if t == "id1" then some [("old", Json.num 1)] else none)
    "id1" [("a", Json.num 2), ("b", Json.num 3)] (by decide)
  refine ⟨h.1.1 "a" (Json.num 2) (by simp), h.1.2 "old" (by decide), ?_⟩
  exact (h.2 [("a", Json.num 2), ("b", Json.num 3)] (by decide)).1 "b"
    (Json.num 3) (by simp)

/-!
### PersistenceEngine lemmas (shared)
-/

/-- Sorting newest-first: a row strictly newer than everything in the list
comes out in front. -/
theorem sortDesc_append_max (l : List PRecord) (r : PRecord)
    (hmax : ∀ x ∈ l, x.timestamp < r.timestamp) :
    sortDesc (l ++ [r]) = r :: sortDesc l := by
  induction l with
  | nil => rfl
  | cons x l' ih =>
      have hx : x.timestamp < r.timestamp := hmax x (List.mem_cons_self x l')
      have hrec := ih (fun y hy => hmax y (List.mem_cons_of_mem x hy))
      show insertDesc x (sortDesc (l' ++ [r])) = r :: insertDesc x (sortDesc l')
      rw [hrec]
      simp [insertDesc, Nat.le_of_lt hx]

/-- A successful insert (fresh trace id, string-valued agent/action, legal
status) appends exactly the row built by `_insert_record` and advances the
clock. -/
theorem insertRecord_success (db : PDb) (s : Summary) (aid act : String)
    (haid : dictGetStr s.decision "agent_id" = some aid)
    (hact : dictGetStr s.decision "action" = some act)
    (hfresh : ∀ r ∈ db.rows, r.trace_id ≠ s.trace_id)
    (hstat : statusAllowed s.status = true) :
    insertRecord db s =
      ⟨db.rows ++ [⟨s.trace_id, db.clock, aid, act, s.status,
          ⟨Json.obj s.decision⟩, dumpResult s.result,
          some s.latency_ms, errJoin s.errors⟩],
        db.clock + 1⟩ := by
  have hany : db.rows.any (fun r => r.trace_id == s.trace_id) = false := by
    simp only [List.any_eq_false]
    intro r hr
    simp [hfresh r hr]
  simp [insertRecord, haid, hact, hany, hstat]

/-!
### C4 — the decision log is insert-only and keyed by trace_id
-/

/-- `_insert_record` either leaves the table unchanged or appends one row
with the summary's (previously absent) trace id. -/
theorem insertRecord_cases (db : PDb) (s : Summary) :
    (insertRecord db s).rows = db.rows
    ∨ ∃ r, (insertRecord db s).rows = db.rows ++ [r]
        ∧ r.trace_id = s.trace_id
        ∧ s.trace_id ∉ db.rows.map PRecord.trace_id := by
  unfold insertRecord
  rcases dictGetStr s.decision "agent_id" with _ | aid
  · exact Or.inl rfl
  rcases dictGetStr s.decision "action" with _ | act
  · exact Or.inl rfl
  by_cases hany : db.rows.any (fun r => r.trace_id == s.trace_id) = true
  · exact Or.inl (by simp [hany])
  · simp only [Bool.not_eq_true] at hany
    by_cases hstat : statusAllowed s.status = true
    · refine Or.inr ⟨⟨s.trace_id, db.clock, aid, act, s.status,
        ⟨Json.obj s.decision⟩, dumpResult s.result,
        some s.latency_ms, errJoin s.errors⟩, by simp [hany, hstat], rfl, ?_⟩
      simp only [List.any_eq_false, beq_iff_eq] at hany
      intro hmem
      rcases List.mem_map.mp hmem with ⟨r, hr, hrx⟩
      exact hany r hr hrx
    · simp only [Bool.not_eq_true] at hstat
      exact Or.inl (by simp [hany, hstat])

/-- C4: every persistence write (`log_decision`,
`log_decision_from_summary`, and the `decision.*` event subscription all
delegate to `_insert_record`) either appends exactly one new row carrying
the summary's trace_id or leaves the log unchanged, returning normally in
both cases (the raised SQLite error is caught); the previous rows are
always a prefix of the new rows (nothing is modified or deleted), and
trace_id uniqueness is preserved. -/
theorem C4_insert_only (db : PDb) (s : Summary) :
    ((insertRecord db s).rows = db.rows
      ∨ ∃ r, (insertRecord db s).rows = db.rows ++ [r]
          ∧ r.trace_id = s.trace_id)
    ∧ db.rows <+: (insertRecord db s).rows
    ∧ ((db.rows.map PRecord.trace_id).Nodup →
        ((insertRecord db s).rows.map PRecord.trace_id).Nodup)
    ∧ logDecisionFromSummary db s = insertRecord db s
    ∧ onDecisionEvent db "decision.completed" s = insertRecord db s
    ∧ logDecision db s = insertRecord db s := by
  rcases insertRecord_cases db s with h | ⟨r, h, hr, hfresh⟩
  · exact ⟨Or.inl h, h ▸ List.prefix_refl _, fun hnd => h ▸ hnd, rfl, rfl, rfl⟩
  · refine ⟨Or.inr ⟨r, h, hr⟩, h ▸ ⟨[r], rfl⟩, ?_, rfl, rfl, rfl⟩
    intro hnd
    rw [h, List.map_append, List.map_cons, List.map_nil]
    rw [List.nodup_append]
    refine ⟨hnd, List.nodup_singleton _, ?_⟩
    intro x hx
    simp only [List.mem_singleton]
    intro he
    exact hfresh (hr ▸ he ▸ hx)

/-- C4 (witness): inserting a well-formed summary into the empty log keeps
trace_id uniqueness, and the old rows remain a prefix. -/
theorem C4_insert_only_witness :
    ((insertRecord ⟨[], 0⟩
        ⟨"executed", "t4", [("action", Json.str "ping"),
          ("agent_id", Json.str "a1"), ("payload", Json.obj [])],
          none, 5, [], []⟩).rows.map PRecord.trace_id).Nodup
    ∧ (⟨[], 0⟩ : PDb).rows <+: (insertRecord ⟨[], 0⟩
        ⟨"executed", "t4", [("action", Json.str "ping"),
          ("agent_id", Json.str "a1"), ("payload", Json.obj [])],
          none, 5, [], []⟩).rows := by
  have h := C4_insert_only ⟨[], 0⟩
    ⟨"executed", "t4", [("action", Json.str "ping"),
      ("agent_id", Json.str "a1"), ("payload", Json.obj [])],
      none, 5, [], []⟩
  exact ⟨h.2.2.1 (by simp), h.2.1⟩

/-!
### C9 — write/read round-trip
-/

/-- C9: a summary the engine successfully writes (string `agent_id` and
`action`, fresh trace id, legal status) is returned by `get_agent_history`
for that agent with no filters as the newest record, with identical
agent_id, action and status, and with `input_payload` / `result_payload`
deserializing back to the original structures (`json.loads ∘ json.dumps`;
a `None` result round-trips through the TEXT `"null"` back to `None`,
here `Json.null`). -/
theorem C9_roundtrip (db : PDb) (s : Summary) (aid act : String)
    (limit : Nat)
    (hclock : ∀ r ∈ db.rows, r.timestamp < db.clock)
    (hfresh : ∀ r ∈ db.rows, r.trace_id ≠ s.trace_id)
    (haid : dictGetStr s.decision "agent_id" = some aid)
    (hact : dictGetStr s.decision "action" = some act)
    (hstat : statusAllowed s.status = true)
    (hlim : 1 ≤ limit) :
    ∃ rec, (getAgentHistory (insertRecord db s) aid limit none none
        none).head? = some rec
      ∧ rec.trace_id = s.trace_id
      ∧ rec.agent_id = aid
      ∧ rec.action = act
      ∧ rec.status = s.status
      ∧ rec.input_payload = Json.obj s.decision
      ∧ rec.result_payload = s.result.getD Json.null := by
  rw [insertRecord_success db s aid act haid hact hfresh hstat]
  set newRow : PRecord := ⟨s.trace_id, db.clock, aid, act, s.status,
    ⟨Json.obj s.decision⟩, dumpResult s.result,
    some s.latency_ms, errJoin s.errors⟩ with hnew
  refine ⟨toHistoryRecord newRow, ?_, rfl, rfl, rfl, rfl, rfl, rfl⟩
  have hpred : historyPred aid none none none newRow = true := by
    simp [historyPred, truthyOptStr, truthyOptNat, hnew]
  unfold getAgentHistory
  simp only [List.filter_append, List.filter_cons, List.filter_nil, hpred,
    if_true]
  rw [sortDesc_append_max]
  · obtain ⟨n, rfl⟩ : ∃ n, limit = n + 1 := ⟨limit - 1, by omega⟩
    simp
  · intro x hx
    exact hclock x (List.mem_of_mem_filter hx)

/-- C9 (witness): a `ping` summary with a structured result written to the
empty log and read back unfiltered. -/
theorem C9_roundtrip_witness :
    ∃ rec, (getAgentHistory (insertRecord ⟨[], 0⟩
        ⟨"executed", "t9", [("action", Json.str "ping"),
          ("agent_id", Json.str "a1"), ("payload", Json.obj [])],
          some (Json.obj [("message", Json.str "pong")]), 5, [], []⟩)
        "a1" 10 none none none).head? = some rec
      ∧ rec.trace_id = "t9"
      ∧ rec.agent_id = "a1"
      ∧ rec.action = "ping"
      ∧ rec.status = "executed"
      ∧ rec.input_payload = Json.obj [("action", Json.str "ping"),
          ("agent_id", Json.str "a1"), ("payload", Json.obj [])]
      ∧ rec.result_payload = (some (Json.obj
          [("message", Json.str "pong")])).getD Json.null :=
  C9_roundtrip ⟨[], 0⟩
    ⟨"executed", "t9", [("action", Json.str "ping"),
      ("agent_id", Json.str "a1"), ("payload", Json.obj [])],
      some (Json.obj [("message", Json.str "pong")]), 5, [], []⟩
    "a1" "ping" 10 (by simp) (by simp) rfl rfl (by decide) (by decide)

/-!
### C10 — falsy filter arguments are ignored
-/

/-- C10: `get_agent_history` applies each optional filter only when its
argument is Python-truthy, so `since_timestamp=0` behaves exactly like
omitting the filter (records of every age are returned), and an
empty-string `status` or `action` likewise behaves like `None`. -/
theorem C10_falsy_filters_ignored (db : PDb) (aid : String) (limit : Nat)
    (status action : Option String) (since : Option Nat) :
    getAgentHistory db aid limit status action (some 0)
        = getAgentHistory db aid limit status action none
    ∧ getAgentHistory db aid limit (some "") action since
        = getAgentHistory db aid limit none action since
    ∧ getAgentHistory db aid limit status (some "") since
        = getAgentHistory db aid limit status none since :=
  ⟨rfl, rfl, rfl⟩

end LRECore
